import Mathlib

/-
Verification development for the AWS instance-provisioning module
(sky/provision/aws/instance.py).

The module is shallowly embedded: Python dictionaries become association
lists, the boto3/EC2 control plane becomes an explicit environment
parameter (a function from attempt index and submitted launch
configuration to an API result, or a concrete world of instances for the
describe/filter calls), and exceptions become explicit outcome
constructors.  All definitions are executable.

A second, heap-level embedding (namespace Heap) models Python's reference
semantics for the nested tag dictionaries: tag dicts live in an explicit
store and the node template holds references into it.  This is needed to
settle the frame property of create, because the source performs only a
shallow copy of the template.
-/

set_option autoImplicit false

namespace Sky

/-- Tag uniquely identifying all nodes of a cluster (source constant
TAG_RAY_CLUSTER_NAME). -/
def TAG_RAY_CLUSTER_NAME : String := "ray-cluster-name"

/-- Source constant BOTO_CREATE_MAX_RETRIES. -/
def BOTO_CREATE_MAX_RETRIES : Nat := 5

/-- An EC2 tag, a dict with keys Key and Value in the source. -/
structure Tag where
  key : String
  value : String
deriving DecidableEq, Repr

instance : Inhabited Tag := ⟨⟨"", ""⟩⟩

/-- A tag specification entry, a dict with keys ResourceType and Tags. -/
structure TagSpec where
  resourceType : String
  tags : List Tag
deriving DecidableEq, Repr

/-- A describe-instances filter, a dict with keys Name and Values. -/
structure Filter where
  name : String
  values : List String
deriving DecidableEq, Repr

/-- An EC2 instance handle: provider-assigned id plus the observable
attributes the module reads (lifecycle state name and tags). -/
structure Instance where
  id : String
  state : String
  tags : List Tag
deriving DecidableEq, Repr

/-- Python dict insertion: overwrite the value of an existing key in
place, otherwise append the new binding at the end. -/
def dictInsert {β : Type} (d : List (String × β)) (k : String) (v : β) :
    List (String × β) :=
  if d.any (fun q => q.1 == k) then
    d.map (fun q => if q.1 == k then (k, v) else q)
  else
    d ++ [(k, v)]

/-- Python dict.update: insert every binding of the second dict into the
first, in order. -/
def dictUpdate {β : Type} (d1 d2 : List (String × β)) : List (String × β) :=
  d2.foldl (fun d p => dictInsert d p.1 p.2) d1

/-- Source _format_tags: turn a tag dict into a list of Key/Value tag
records, in insertion order. -/
def formatTags (tags : List (String × String)) : List Tag :=
  tags.map (fun p => ⟨p.1, p.2⟩)

/-- The tag dict built at the top of create_instances:
the Python literal with Name and TAG_RAY_CLUSTER_NAME mapped to the
cluster name followed by the splat of the caller tags (later bindings
overwrite values, original key position kept). -/
def buildTags (clusterName : String) (tags : List (String × String)) :
    List (String × String) :=
  ([("Name", clusterName), (TAG_RAY_CLUSTER_NAME, clusterName)] ++ tags).foldl
    (fun d p => dictInsert d p.1 p.2) []

/-- Inner loop of _merge_tag_specs for a single user tag: scan the base
instance-entry tag list for the first tag with the same key and overwrite
its value, appending the user tag at the end when no key matches. -/
def applyUserTag : List Tag → Tag → List Tag
  | [], ut => [ut]
  | t :: ts, ut =>
    if ut.key == t.key then ⟨t.key, ut.value⟩ :: ts
    else t :: applyUserTag ts ut

/-- Effect of _merge_tag_specs on the tag list of the first base entry:
fold every tag of every user entry of resource type instance through
applyUserTag, in input order. -/
def mergeInstanceTags (baseTags : List Tag) (userTagSpecs : List TagSpec) :
    List Tag :=
  userTagSpecs.foldl
    (fun acc us =>
      if us.resourceType == "instance" then us.tags.foldl applyUserTag acc
      else acc)
    baseTags

/-- The user entries _merge_tag_specs appends verbatim: every entry whose
resource type is not instance, in input order. -/
def appendedSpecs (userTagSpecs : List TagSpec) : List TagSpec :=
  userTagSpecs.filter (fun us => !(us.resourceType == "instance"))

/-- Source _merge_tag_specs, value level.  The source mutates the base
list in place: entry 0 receives the merged instance tags and every
non-instance user entry is appended at the end.  Accessing entry 0 of an
empty base while a user instance entry exists raises IndexError in
Python; that case is none here. -/
def mergeTagSpecs : List TagSpec → List TagSpec → Option (List TagSpec)
  | [], user =>
    if user.any (fun us => us.resourceType == "instance") then none
    else some (appendedSpecs user)
  | b0 :: rest, user =>
    some (⟨b0.resourceType, mergeInstanceTags b0.tags user⟩ ::
      (rest ++ appendedSpecs user))

/-- The node configuration template: the fields of the Python dict the
module reads or writes, plus an opaque remainder that is never touched. -/
structure NodeConfig where
  subnetIds : Option (List String)
  subnetId : Option String
  tagSpecifications : Option (List TagSpec)
  securityGroupIds : Option (List String)
  networkInterfaces : Option (List String)
  minCount : Option Nat
  maxCount : Option Nat
  rest : List (String × String)
deriving DecidableEq, Repr

/-- Outcome of one ec2.create_instances call, as seen by the module:
either the list of created instances, a botocore ClientError (the only
exception type the retry loop catches), or any other exception. -/
inductive ApiResult where
  | success (instances : List Instance)
  | clientError (msg : String)
  | otherError (msg : String)
deriving DecidableEq, Repr

/-- One attempt of the creation loop: the configuration submitted to the
provider and the provider's result. -/
structure Attempt where
  conf : NodeConfig
  result : ApiResult
deriving DecidableEq, Repr

/-- Result of create_instances: the returned id-keyed mapping, the
RuntimeError raised when the attempt budget is exhausted (wrapping the
last client error message), a propagated non-client error, the KeyError
of a template without SubnetIds, or the ZeroDivisionError of an empty
subnet list; fellThrough marks the unreachable fall-off-the-loop path. -/
inductive CreateOutcome where
  | ok (instances : List (String × Instance))
  | exhausted (lastErr : String)
  | error (msg : String)
  | keyError
  | indexError
  | fellThrough
deriving DecidableEq, Repr

/-- Per-iteration pinning of a single subnet id:
conf with SubnetId set to subnetIds at index i mod length. -/
def withSubnet (conf : NodeConfig) (cands : List String) (i : Nat) :
    NodeConfig :=
  { conf with subnetId := some (cands.getD (i % cands.length) "") }

/-- Per-iteration removal of SecurityGroupIds when the template carries
explicit NetworkInterfaces. -/
def stripSG (conf : NodeConfig) : NodeConfig :=
  { conf with securityGroupIds := none }

/-- The retry loop of create_instances.  i is the Python loop index,
remaining the number of iterations left (max_tries minus i); the raise
condition i + 1 greater or equal max_tries is exactly remaining = 1.
The working configuration is threaded because the source mutates conf
across iterations. -/
def createLoop (env : Nat → NodeConfig → ApiResult) (cands : List String) :
    NodeConfig → Nat → Nat → List Attempt × CreateOutcome
  | _conf, _i, 0 => ([], CreateOutcome.fellThrough)
  | conf, i, Nat.succ rem =>
    if conf.networkInterfaces.isNone && cands.isEmpty then
      ([], CreateOutcome.indexError)
    else
      let c := if conf.networkInterfaces.isSome then stripSG conf
               else withSubnet conf cands i
      match env i c with
      | ApiResult.success lst =>
        ([⟨c, ApiResult.success lst⟩],
         CreateOutcome.ok (lst.map (fun n => (n.id, n))))
      | ApiResult.clientError e =>
        match rem with
        | 0 => ([⟨c, ApiResult.clientError e⟩], CreateOutcome.exhausted e)
        | Nat.succ rem2 =>
          let r := createLoop env cands c (i + 1) (Nat.succ rem2)
          (⟨c, ApiResult.clientError e⟩ :: r.1, r.2)
      | ApiResult.otherError e =>
        ([⟨c, ApiResult.otherError e⟩], CreateOutcome.error e)

/-- Source create_instances.  The environment env gives the provider's
response to each submitted launch configuration, indexed by attempt.
Returns the trace of submitted attempts together with the outcome. -/
def createInstances (env : Nat → NodeConfig → ApiResult)
    (clusterName : String) (nodeConfig : NodeConfig)
    (tags : List (String × String)) (count : Nat) :
    List Attempt × CreateOutcome :=
  let allTags := buildTags clusterName tags
  let tagSpecs : List TagSpec := [⟨"instance", formatTags allTags⟩]
  let userTagSpecs := nodeConfig.tagSpecifications.getD []
  let merged := (mergeTagSpecs tagSpecs userTagSpecs).getD []
  match nodeConfig.subnetIds with
  | none => ([], CreateOutcome.keyError)
  | some subnetIds =>
    let conf := { nodeConfig with
      subnetIds := none,
      minCount := some 1,
      maxCount := some count,
      tagSpecifications := some merged }
    createLoop env subnetIds conf 0
      (max BOTO_CREATE_MAX_RETRIES subnetIds.length)

/-- Whether an instance matches one describe-instances filter, for the
two filter kinds the module uses: instance-state-name matches the
lifecycle state, and a filter named tag:K matches when some tag has key K
and one of the allowed values. -/
def matchesFilter (inst : Instance) (f : Filter) : Bool :=
  if f.name == "instance-state-name" then
    f.values.any (fun v => v == inst.state)
  else if f.name.data.take 4 == "tag:".data then
    f.values.any (fun v =>
      inst.tags.any (fun t =>
        t.key == String.mk (f.name.data.drop 4) && t.value == v))
  else false

/-- ec2.instances.filter: the instances of the world matching every
filter, in world order. -/
def filterInstances (world : List Instance) (filters : List Filter) :
    List Instance :=
  world.filter (fun inst => filters.all (fun f => matchesFilter inst f))

/-- The provider calls resume_instances issues, recorded as a trace:
ids waited on until stopped, the id batches passed to start_instances,
and the id-batch/tag-list pairs passed to create_tags. -/
structure ResumeTrace where
  waitedStopped : List String
  startCalls : List (List String)
  createTagsCalls : List (List String × List Tag)
deriving DecidableEq, Repr

/-- The filters resume_instances builds: stopped-or-stopping lifecycle
state and the cluster-identity tag. -/
def resumeFilters (clusterName : String) : List Filter :=
  [⟨"instance-state-name", ["stopped", "stopping"]⟩,
   ⟨"tag:" ++ TAG_RAY_CLUSTER_NAME, [clusterName]⟩]

/-- The candidate list of resume_instances: the instances matching the
filters, truncated to count when one is given. -/
def resumeCandidates (world : List Instance) (clusterName : String)
    (count : Option Nat) : List Instance :=
  let reuseNodes0 := filterInstances world (resumeFilters clusterName)
  match count with
  | some c => reuseNodes0.take c
  | none => reuseNodes0

/-- Source resume_instances: list the stopped or stopping instances of
the cluster, truncate to count, wait out the stopping ones, start the
batch, tag it when the caller tags are non-empty, and return the
instances keyed by id. -/
def resumeInstances (world : List Instance) (clusterName : String)
    (tags : List (String × String)) (count : Option Nat) :
    List (String × Instance) × ResumeTrace :=
  let reuseNodes := resumeCandidates world clusterName count
  let reuseNodeIds := reuseNodes.map (fun n => n.id)
  if reuseNodes.isEmpty then
    (reuseNodes.map (fun n => (n.id, n)), ⟨[], [], []⟩)
  else
    let waited := (reuseNodes.filter (fun n => n.state == "stopping")).map
      (fun n => n.id)
    let tagCalls := if tags.isEmpty then []
      else [(reuseNodeIds, formatTags tags)]
    (reuseNodes.map (fun n => (n.id, n)), ⟨waited, [reuseNodeIds], tagCalls⟩)

/-- Insertion of a key/value pair into a key-sorted pair list, comparing
pairs the way Python sorted compares tuples (key first, value on key
ties). -/
def sortedInsertPair (p : String × String) :
    List (String × String) → List (String × String)
  | [] => [p]
  | q :: qs =>
    if p.1 < q.1 || (p.1 == q.1 && decide (p.2 ≤ q.2)) then p :: q :: qs
    else q :: sortedInsertPair p qs

/-- dict(sorted(tags.items())): the caller tag dict re-built in sorted
key order. -/
def sortPairs (tags : List (String × String)) : List (String × String) :=
  tags.foldr sortedInsertPair []

/-- Trace of one create_or_resume_instances call: the resumed mapping and
the resume-side provider calls, the count passed to create_instances
(none when create is not called), and the creation attempts. -/
structure EnsureTrace where
  resumed : List (String × Instance)
  resumeCalls : ResumeTrace
  createRequested : Option Nat
  createAttempts : List Attempt
deriving DecidableEq, Repr

/-- Outcome of create_or_resume_instances: the id-keyed union mapping, or
the exception propagated out of create_instances. -/
inductive EnsureOutcome where
  | ok (nodes : List (String × Instance))
  | failed (err : CreateOutcome)
deriving DecidableEq, Repr

/-- Source create_or_resume_instances: sort the tags, resume when
permitted, and create the shortfall when positive, returning the union
of the two mappings. -/
def createOrResumeInstances (env : Nat → NodeConfig → ApiResult)
    (world : List Instance) (clusterName : String)
    (nodeConfig : NodeConfig) (tags : List (String × String)) (count : Nat)
    (resumeStoppedNodes : Bool) : EnsureTrace × EnsureOutcome :=
  let tags2 := sortPairs tags
  let resumedPair := if resumeStoppedNodes then
      resumeInstances world clusterName tags2 (some count)
    else ([], ⟨[], [], []⟩)
  let allCreatedNodes := resumedPair.1
  let remainingCount : Int := (count : Int) - allCreatedNodes.length
  if remainingCount > 0 then
    let created := createInstances env clusterName nodeConfig tags2
      remainingCount.toNat
    match created.2 with
    | CreateOutcome.ok createdNodes =>
      (⟨allCreatedNodes, resumedPair.2, some remainingCount.toNat, created.1⟩,
       EnsureOutcome.ok (dictUpdate allCreatedNodes createdNodes))
    | e =>
      (⟨allCreatedNodes, resumedPair.2, some remainingCount.toNat, created.1⟩,
       EnsureOutcome.failed e)
  else
    (⟨allCreatedNodes, resumedPair.2, none, []⟩,
     EnsureOutcome.ok allCreatedNodes)

/-- A call to the provider's native wait primitive: the filters and the
fixed minimum poll delay, plus the waiter requested. -/
structure WaitCall where
  waiterKind : String
  filters : List Filter
  delay : Nat
deriving DecidableEq, Repr

/-- Outcome of wait_instances: either a wait call was issued or the
ValueError for an unsupported target state was raised before any
provider wait call. -/
inductive WaitOutcome where
  | waited (call : WaitCall)
  | unsupported (msg : String)
deriving DecidableEq, Repr

/-- Source wait_instances: build the cluster-identity filter, add the
non-terminated lifecycle filter unless waiting for terminated, then
dispatch on the target state, raising ValueError for anything outside
running, stopped, terminated. -/
def waitInstances (clusterName : String) (state : String) : WaitOutcome :=
  let filters : List Filter :=
    [⟨"tag:" ++ TAG_RAY_CLUSTER_NAME, [clusterName]⟩]
  let filters := if state != "terminated" then
      filters ++ [⟨"instance-state-name",
        ["pending", "running", "shutting-down", "stopping", "stopped"]⟩]
    else filters
  if state == "running" then
    WaitOutcome.waited ⟨"instance_running", filters, 5⟩
  else if state == "stopped" then
    WaitOutcome.waited ⟨"instance_stopped", filters, 5⟩
  else if state == "terminated" then
    WaitOutcome.waited ⟨"instance_terminated", filters, 5⟩
  else
    WaitOutcome.unsupported ("Unsupported state to wait: " ++ state)

namespace Heap

/-
Heap-level embedding of create_instances.  node_config.copy() is a
shallow copy, so the tag dictionaries inside TagSpecifications are
shared between the caller's template and the working copy.  Tag dicts
therefore live in an explicit store and tag-spec entries hold references
(store indices) instead of values; the assignment
tag.Value = user_tag.Value of _merge_tag_specs becomes a store update.
-/

/-- The store of mutable tag dictionaries; a reference is an index. -/
abbrev Store := List Tag

/-- Read the tag dict behind a reference. -/
def getTag : Store → Nat → Tag
  | [], _ => default
  | t :: _, 0 => t
  | _ :: ts, Nat.succ r => getTag ts r

/-- The assignment tag.Value = v: update the value field of the dict
behind reference r in place, keeping its key. -/
def setValue : Store → Nat → String → Store
  | [], _, _ => []
  | t :: ts, 0, v => ⟨t.key, v⟩ :: ts
  | t :: ts, Nat.succ r, v => t :: setValue ts r v

/-- A tag specification entry holding references to its tag dicts. -/
structure TagSpecH where
  resourceType : String
  tags : List Nat
deriving DecidableEq, Repr

/-- The node template at heap level: same top-level fields, with the tag
specifications holding references into the store. -/
structure NodeConfigH where
  subnetIds : Option (List String)
  subnetId : Option String
  tagSpecifications : Option (List TagSpecH)
  securityGroupIds : Option (List String)
  networkInterfaces : Option (List String)
  minCount : Option Nat
  maxCount : Option Nat
  rest : List (String × String)
deriving DecidableEq, Repr

/-- Inner loop of _merge_tag_specs at heap level: scan the base entry's
tag references for the first one whose key equals the user tag's key and
overwrite its value through the store; append the user tag's reference
itself when no key matches. -/
def applyUserTagH : Store → List Nat → Nat → Store × List Nat
  | s, [], ut => (s, [ut])
  | s, r :: rs, ut =>
    if (getTag s ut).key == (getTag s r).key then
      (setValue s r (getTag s ut).value, r :: rs)
    else
      let p := applyUserTagH s rs ut
      (p.1, r :: p.2)

/-- Fold of every tag of every instance-type user entry through
applyUserTagH, threading the store. -/
def mergeInstanceTagsH (s : Store) (baseTags : List Nat)
    (userSpecs : List TagSpecH) : Store × List Nat :=
  userSpecs.foldl
    (fun acc us =>
      if us.resourceType == "instance" then
        us.tags.foldl (fun acc2 ut => applyUserTagH acc2.1 acc2.2 ut) acc
      else acc)
    (s, baseTags)

/-- The non-instance user entries appended verbatim, reference level. -/
def appendedSpecsH (userSpecs : List TagSpecH) : List TagSpecH :=
  userSpecs.filter (fun us => !(us.resourceType == "instance"))

/-- Source _merge_tag_specs at heap level. -/
def mergeTagSpecsH (s : Store) :
    List TagSpecH → List TagSpecH → Option (Store × List TagSpecH)
  | [], user =>
    if user.any (fun us => us.resourceType == "instance") then none
    else some (s, appendedSpecsH user)
  | b0 :: restSpecs, user =>
    let p := mergeInstanceTagsH s b0.tags user
    some (p.1, ⟨b0.resourceType, p.2⟩ :: (restSpecs ++ appendedSpecsH user))

/-- References to n freshly allocated cells starting at the given index. -/
def refsFrom (start : Nat) : Nat → List Nat
  | 0 => []
  | Nat.succ n => start :: refsFrom (start + 1) n

/-- Subnet pinning at heap level. -/
def withSubnetH (conf : NodeConfigH) (cands : List String) (i : Nat) :
    NodeConfigH :=
  { conf with subnetId := some (cands.getD (i % cands.length) "") }

/-- SecurityGroupIds removal at heap level. -/
def stripSGH (conf : NodeConfigH) : NodeConfigH :=
  { conf with securityGroupIds := none }

/-- The retry loop of create_instances at heap level.  The loop reads the
working configuration and calls the provider; it performs no store
write, so it returns the outcome alone. -/
def createLoopH (env : Nat → NodeConfigH → ApiResult) (cands : List String) :
    NodeConfigH → Nat → Nat → CreateOutcome
  | _conf, _i, 0 => CreateOutcome.fellThrough
  | conf, i, Nat.succ rem =>
    if conf.networkInterfaces.isNone && cands.isEmpty then
      CreateOutcome.indexError
    else
      let c := if conf.networkInterfaces.isSome then stripSGH conf
               else withSubnetH conf cands i
      match env i c with
      | ApiResult.success lst =>
        CreateOutcome.ok (lst.map (fun n => (n.id, n)))
      | ApiResult.clientError e =>
        match rem with
        | 0 => CreateOutcome.exhausted e
        | Nat.succ rem2 => createLoopH env cands c (i + 1) (Nat.succ rem2)
      | ApiResult.otherError e => CreateOutcome.error e

/-- Source create_instances at heap level: allocate the fresh base tag
dicts (built from the cluster name and the caller tags), merge the
template's tag-spec entries into them through the shared store, resolve
SubnetIds, and run the retry loop.  Returns the final store together
with the outcome. -/
def createH (env : Nat → NodeConfigH → ApiResult) (clusterName : String)
    (store : Store) (nodeConfig : NodeConfigH)
    (tags : List (String × String)) (count : Nat) : Store × CreateOutcome :=
  let baseDicts := formatTags (buildTags clusterName tags)
  let alloc : Store := List.append store baseDicts
  let baseRefs := refsFrom (List.length store) baseDicts.length
  let userTagSpecs := nodeConfig.tagSpecifications.getD []
  let mergedPair := (mergeTagSpecsH alloc [⟨"instance", baseRefs⟩]
    userTagSpecs).getD (alloc, [])
  match nodeConfig.subnetIds with
  | none => (mergedPair.1, CreateOutcome.keyError)
  | some subnetIds =>
    let conf := { nodeConfig with
      subnetIds := none,
      minCount := some 1,
      maxCount := some count,
      tagSpecifications := some mergedPair.2 }
    (mergedPair.1,
     createLoopH env subnetIds conf 0
       (max BOTO_CREATE_MAX_RETRIES subnetIds.length))

/-- The caller-visible content of a tag-spec entry: its tag dicts read
through the store. -/
def derefSpec (s : Store) (sp : TagSpecH) : TagSpec :=
  ⟨sp.resourceType, sp.tags.map (fun r => getTag s r)⟩

/-- The caller-visible content of a tag-spec entry list. -/
def derefSpecs (s : Store) (l : List TagSpecH) : List TagSpec :=
  l.map (fun sp => derefSpec s sp)

/-- The references to the tag dicts of the instance-type entries of a
user tag-spec list, in merge order: these are the dicts _merge_tag_specs
reads and may overwrite or append. -/
def flatInstanceRefs (userSpecs : List TagSpecH) : List Nat :=
  userSpecs.foldr
    (fun sp acc =>
      if sp.resourceType == "instance" then sp.tags ++ acc else acc)
    []

end Heap

/-- First-match lookup in a tag list, the way both the merge's overwrite
scan and a reader of the resulting dict list resolve a key. -/
def tagLookup : List Tag → String → Option String
  | [], _ => none
  | t :: ts, k => if t.key == k then some t.value else tagLookup ts k

/-- The value of the last tag with the given key in a user tag list;
none when the key does not occur.  Successive overwrites make this the
value the merge leaves behind. -/
def lastValueOf : List Tag → String → Option String
  | [], _ => none
  | t :: ts, k =>
    match lastValueOf ts k with
    | some v => some v
    | none => if t.key == k then some t.value else none

/-- The tags of the instance-type entries of a user tag-spec list,
flattened in merge order. -/
def flatInstanceTags (specs : List TagSpec) : List Tag :=
  specs.foldr
    (fun sp acc =>
      if sp.resourceType == "instance" then sp.tags ++ acc else acc)
    []

/-- The working configuration create_instances has built when the retry
loop starts: SubnetIds removed, MinCount 1, MaxCount count, and the
merged tag specifications installed. -/
def submittedConf (clusterName : String) (nodeConfig : NodeConfig)
    (tags : List (String × String)) (count : Nat) : NodeConfig :=
  { nodeConfig with
    subnetIds := none,
    minCount := some 1,
    maxCount := some count,
    tagSpecifications := some ((mergeTagSpecs
      [⟨"instance", formatTags (buildTags clusterName tags)⟩]
      (nodeConfig.tagSpecifications.getD [])).getD []) }

/-- The configuration submitted on attempt i when the template has no
explicit network interfaces: the working configuration with the subnet
pinned by round robin. -/
def attemptConfAt (clusterName : String) (nodeConfig : NodeConfig)
    (tags : List (String × String)) (count : Nat) (cands : List String)
    (i : Nat) : NodeConfig :=
  withSubnet (submittedConf clusterName nodeConfig tags count) cands i

/-- The list f i, f (i+1), ..., n entries long: the shape of the attempt
trace of the retry loop. -/
def traceFrom (f : Nat → Attempt) : Nat → Nat → List Attempt
  | _, 0 => []
  | i, Nat.succ n => f i :: traceFrom f (i + 1) n

/-- Concrete fixture: a freshly created instance handle. -/
def instPending : Instance := ⟨"i-1", "pending", []⟩

/-- Concrete fixture: a stopped instance of cluster c1. -/
def instStopped : Instance :=
  ⟨"i-9", "stopped", [⟨TAG_RAY_CLUSTER_NAME, "c1"⟩]⟩

/-- Concrete fixture: a template with one candidate subnet. -/
def cfgOneSubnet : NodeConfig :=
  ⟨some ["s1"], none, none, none, none, none, none, []⟩

/-- Concrete fixture: a template with two candidate subnets. -/
def cfgTwoSubnets : NodeConfig :=
  ⟨some ["s1", "s2"], none, none, none, none, none, none, []⟩

/-- Concrete fixture: a provider that launches a single instance
(permitted whenever the submitted MinCount is 1) on every attempt. -/
def envUnderCount : Nat → NodeConfig → ApiResult :=
  fun _ _ => ApiResult.success [instPending]

/-- Concrete fixture: a provider that launches a single instance exactly
when the submitted launch spec carries MinCount 1 and MaxCount 2, and
reports a client error otherwise.  Its successes respect the submitted
MinCount/MaxCount bounds. -/
def envBounded : Nat → NodeConfig → ApiResult :=
  fun _ c =>
    if c.minCount == some 1 && c.maxCount == some 2 then
      ApiResult.success [instPending]
    else ApiResult.clientError "bounds"

/-- Concrete fixture: a provider whose every creation attempt fails with
the same client error. -/
def envFail : Nat → NodeConfig → ApiResult :=
  fun _ _ => ApiResult.clientError "boom"

/-- Concrete fixture: a heap store holding the two tag dicts of a caller
template whose instance entry repeats the key A. -/
def storeCE : Heap.Store := [⟨"A", "1"⟩, ⟨"A", "2"⟩]

/-- Concrete fixture: a heap-level template referencing the two cells of
storeCE from a single instance-type tag-spec entry. -/
def tmplCE : Heap.NodeConfigH :=
  ⟨some ["s1"], none, some [⟨"instance", [0, 1]⟩], none, none, none, none, []⟩

/-- Concrete fixture: a heap-level provider that succeeds at once. -/
def envHOk : Nat → Heap.NodeConfigH → ApiResult :=
  fun _ _ => ApiResult.success []

instance : Inhabited NodeConfig :=
  ⟨⟨none, none, none, none, none, none, none, []⟩⟩

instance : Inhabited Attempt := ⟨⟨default, ApiResult.clientError ""⟩⟩

/-
Lemmas about the tag merge (shared by several claims).
-/

theorem applyUserTag_lookup (ts : List Tag) (ut : Tag) (k : String) :
    tagLookup (applyUserTag ts ut) k =
      if ut.key = k then some ut.value else tagLookup ts k := by
  induction ts with
  | nil =>
    by_cases h : ut.key = k <;> simp [applyUserTag, tagLookup, h]
  | cons t ts ih =>
    by_cases hk : ut.key = t.key
    · by_cases h : ut.key = k
      · simp [applyUserTag, tagLookup, hk, h, hk ▸ h]
      · have ht : ¬ t.key = k := fun hh => h (hk.trans hh)
        simp [applyUserTag, tagLookup, hk, h, ht]
    · by_cases h : t.key = k
      · have hu : ¬ ut.key = k := fun hh => hk (hh.trans h.symm)
        simp [applyUserTag, tagLookup, hk, h, hu]
      · simp [applyUserTag, tagLookup, hk, h, ih]

theorem foldl_applyUserTag_lookup (us : List Tag) (b : List Tag)
    (k : String) :
    tagLookup (us.foldl applyUserTag b) k =
      match lastValueOf us k with
      | some v => some v
      | none => tagLookup b k := by
  induction us generalizing b with
  | nil => simp [lastValueOf]
  | cons u us ih =>
    have hl : lastValueOf (u :: us) k =
        match lastValueOf us k with
        | some v => some v
        | none => if u.key == k then some u.value else none := rfl
    simp only [List.foldl_cons]
    rw [ih, hl]
    cases h : lastValueOf us k with
    | some v => rfl
    | none =>
      rw [applyUserTag_lookup]
      by_cases hu : u.key = k <;> simp [hu]

theorem mergeInstanceTags_eq_foldl (specs : List TagSpec) (b : List Tag) :
    mergeInstanceTags b specs = (flatInstanceTags specs).foldl applyUserTag b := by
  induction specs generalizing b with
  | nil => rfl
  | cons sp specs ih =>
    have h1 : mergeInstanceTags b (sp :: specs) =
        mergeInstanceTags
          (if sp.resourceType == "instance" then sp.tags.foldl applyUserTag b
           else b) specs := rfl
    by_cases h : sp.resourceType = "instance"
    · rw [h1]
      simp only [h, beq_self_eq_true, if_true]
      rw [ih]
      have h2 : flatInstanceTags (sp :: specs) = sp.tags ++ flatInstanceTags specs := by
        simp [flatInstanceTags, h]
      rw [h2, List.foldl_append]
    · rw [h1]
      have hb : (sp.resourceType == "instance") = false := by
        simpa using h
      rw [hb]
      simp only [Bool.false_eq_true, if_false]
      rw [ih]
      have h2 : flatInstanceTags (sp :: specs) = flatInstanceTags specs := by
        simp [flatInstanceTags, h]
      rw [h2]

theorem lastValueOf_none_of_not_mem (us : List Tag) (k : String)
    (h : k ∉ us.map Tag.key) : lastValueOf us k = none := by
  induction us with
  | nil => rfl
  | cons t ts ih =>
    have h1 : ¬ t.key = k := fun hh => h (by simp [hh])
    have h2 : k ∉ ts.map Tag.key := fun hh => h (by simp [hh])
    simp [lastValueOf, ih h2, h1]

theorem lastValueOf_eq_tagLookup (us : List Tag) (k : String)
    (h : (us.map Tag.key).Nodup) : lastValueOf us k = tagLookup us k := by
  induction us with
  | nil => rfl
  | cons t ts ih =>
    rw [List.map_cons] at h
    have hhd : t.key ∉ ts.map Tag.key := (List.nodup_cons.mp h).1
    have htl : (ts.map Tag.key).Nodup := (List.nodup_cons.mp h).2
    by_cases hk : t.key = k
    · have hz : lastValueOf ts k = none :=
        lastValueOf_none_of_not_mem ts k (hk ▸ hhd)
      simp [lastValueOf, tagLookup, hz, hk]
    · simp only [lastValueOf, ih htl, tagLookup]
      cases hcase : tagLookup ts k <;> simp [hk, hcase]

/-- C4: tag merge precedence.  With the base list headed by an
instance-type entry and user instance tags carrying duplicate-free keys:
the merged list is the base head with merged tags followed by the base
tail and the non-instance user entries verbatim (once per input
occurrence); every key of the user instance tags resolves to the user's
value in the merged instance entry; and every key absent from the user
instance tags keeps its base resolution. -/
theorem merge_tag_specs_precedence
    (b0tags : List Tag) (rest user : List TagSpec)
    (hnd : ((flatInstanceTags user).map Tag.key).Nodup) :
    mergeTagSpecs (⟨"instance", b0tags⟩ :: rest) user =
      some (⟨"instance", mergeInstanceTags b0tags user⟩ ::
        (rest ++ user.filter (fun s => !(s.resourceType == "instance")))) ∧
    (∀ k vu, tagLookup (flatInstanceTags user) k = some vu →
      tagLookup (mergeInstanceTags b0tags user) k = some vu) ∧
    (∀ k, tagLookup (flatInstanceTags user) k = none →
      tagLookup (mergeInstanceTags b0tags user) k = tagLookup b0tags k) := by
  refine ⟨rfl, ?_, ?_⟩
  · intro k vu hvu
    rw [mergeInstanceTags_eq_foldl, foldl_applyUserTag_lookup,
      lastValueOf_eq_tagLookup _ _ hnd, hvu]
  · intro k hnone
    rw [mergeInstanceTags_eq_foldl, foldl_applyUserTag_lookup,
      lastValueOf_eq_tagLookup _ _ hnd, hnone]

/-- C4 witness. -/
theorem merge_tag_specs_precedence_witness :
    mergeTagSpecs
        [⟨"instance", [⟨"a", "1"⟩, ⟨"b", "2"⟩]⟩]
        [⟨"instance", [⟨"a", "9"⟩, ⟨"c", "3"⟩]⟩, ⟨"volume", [⟨"z", "0"⟩]⟩] =
      some (⟨"instance",
          mergeInstanceTags [⟨"a", "1"⟩, ⟨"b", "2"⟩]
            [⟨"instance", [⟨"a", "9"⟩, ⟨"c", "3"⟩]⟩, ⟨"volume", [⟨"z", "0"⟩]⟩]⟩ ::
        ([] ++ [⟨"instance", [⟨"a", "9"⟩, ⟨"c", "3"⟩]⟩,
            ⟨"volume", [⟨"z", "0"⟩]⟩].filter
          (fun s => !(s.resourceType == "instance")))) ∧
    tagLookup (mergeInstanceTags [⟨"a", "1"⟩, ⟨"b", "2"⟩]
        [⟨"instance", [⟨"a", "9"⟩, ⟨"c", "3"⟩]⟩, ⟨"volume", [⟨"z", "0"⟩]⟩]) "a" =
      some "9" ∧
    tagLookup (mergeInstanceTags [⟨"a", "1"⟩, ⟨"b", "2"⟩]
        [⟨"instance", [⟨"a", "9"⟩, ⟨"c", "3"⟩]⟩, ⟨"volume", [⟨"z", "0"⟩]⟩]) "b" =
      tagLookup [⟨"a", "1"⟩, ⟨"b", "2"⟩] "b" := by
  have h := merge_tag_specs_precedence [⟨"a", "1"⟩, ⟨"b", "2"⟩] []
    [⟨"instance", [⟨"a", "9"⟩, ⟨"c", "3"⟩]⟩, ⟨"volume", [⟨"z", "0"⟩]⟩]
    (by decide)
  exact ⟨h.1, h.2.1 "a" "9" (by decide), h.2.2 "b" (by decide)⟩

/-- C5 counterexample: merging the one-entry volume-type tag-spec list
with an equal copy of itself appends the copy, duplicating the entry, so
the merge is not idempotent on every tag-spec list. -/
theorem merge_idempotent_counterexample :
    mergeTagSpecs [⟨"volume", []⟩] [⟨"volume", []⟩] ≠
      some [⟨"volume", []⟩] := by
  decide

theorem applyUserTag_self (ts : List Tag) (ut : Tag)
    (h : (ts.map Tag.key).Nodup) (hm : ut ∈ ts) : applyUserTag ts ut = ts := by
  induction ts with
  | nil => cases hm
  | cons t ts ih =>
    rw [List.map_cons] at h
    have hhd : t.key ∉ ts.map Tag.key := (List.nodup_cons.mp h).1
    have htl : (ts.map Tag.key).Nodup := (List.nodup_cons.mp h).2
    by_cases hk : ut.key = t.key
    · have hut : ut = t := by
        rcases List.mem_cons.mp hm with h1 | h1
        · exact h1
        · exact absurd (hk ▸ List.mem_map_of_mem Tag.key h1) hhd
      subst hut
      simp [applyUserTag]
    · have hm2 : ut ∈ ts := by
        rcases List.mem_cons.mp hm with h1 | h1
        · exact absurd (h1 ▸ rfl) hk
        · exact h1
      simp [applyUserTag, hk, ih htl hm2]

theorem foldl_applyUserTag_self (ts : List Tag)
    (h : (ts.map Tag.key).Nodup) :
    ∀ us : List Tag, (∀ u ∈ us, u ∈ ts) → us.foldl applyUserTag ts = ts := by
  intro us
  induction us with
  | nil => intro _; rfl
  | cons u us ih =>
    intro hsub
    have h1 : applyUserTag ts u = ts :=
      applyUserTag_self ts u h (hsub u (List.mem_cons_self u us))
    simp only [List.foldl_cons, h1]
    exact ih (fun v hv => hsub v (List.mem_cons_of_mem u hv))

/-- C5 amended: the merge is idempotent on the tag-spec lists of the
shape the module itself builds as base, a single instance-type entry
with duplicate-free tag keys. -/
theorem merge_idempotent_single_instance_spec (ts : List Tag)
    (h : (ts.map Tag.key).Nodup) :
    mergeTagSpecs [⟨"instance", ts⟩] [⟨"instance", ts⟩] =
      some [⟨"instance", ts⟩] := by
  have h1 : mergeInstanceTags ts [⟨"instance", ts⟩] = ts := by
    have : mergeInstanceTags ts [(⟨"instance", ts⟩ : TagSpec)] =
        ts.foldl applyUserTag ts := by
      simp [mergeInstanceTags]
    rw [this, foldl_applyUserTag_self ts h ts (fun u hu => hu)]
  simp [mergeTagSpecs, appendedSpecs, h1]

/-- C5 amended witness. -/
theorem merge_idempotent_single_instance_spec_witness :
    mergeTagSpecs [⟨"instance", [⟨"k", "v"⟩]⟩] [⟨"instance", [⟨"k", "v"⟩]⟩] =
      some [⟨"instance", [⟨"k", "v"⟩]⟩] :=
  merge_idempotent_single_instance_spec [⟨"k", "v"⟩] (by decide)

/-- C7: wait_instances rejects any target state outside running, stopped
and terminated with the unsupported-state error before any provider wait
call; the terminated wait carries only the cluster-identity filter (no
lifecycle-state restriction), and the running and stopped waits carry a
lifecycle filter whose allowed states exclude terminated. -/
theorem wait_instances_state_policy (cn : String) :
    (∀ state : String, state ≠ "running" → state ≠ "stopped" →
      state ≠ "terminated" →
      waitInstances cn state =
        WaitOutcome.unsupported ("Unsupported state to wait: " ++ state)) ∧
    waitInstances cn "terminated" =
      WaitOutcome.waited ⟨"instance_terminated",
        [⟨"tag:" ++ TAG_RAY_CLUSTER_NAME, [cn]⟩], 5⟩ ∧
    waitInstances cn "running" =
      WaitOutcome.waited ⟨"instance_running",
        [⟨"tag:" ++ TAG_RAY_CLUSTER_NAME, [cn]⟩,
         ⟨"instance-state-name",
          ["pending", "running", "shutting-down", "stopping", "stopped"]⟩], 5⟩ ∧
    waitInstances cn "stopped" =
      WaitOutcome.waited ⟨"instance_stopped",
        [⟨"tag:" ++ TAG_RAY_CLUSTER_NAME, [cn]⟩,
         ⟨"instance-state-name",
          ["pending", "running", "shutting-down", "stopping", "stopped"]⟩], 5⟩ ∧
    "terminated" ∉ ["pending", "running", "shutting-down", "stopping",
      "stopped"] := by
  refine ⟨?_, rfl, rfl, rfl, by decide⟩
  intro state h1 h2 h3
  simp [waitInstances, h1, h2, h3]

/-- C7 witness. -/
theorem wait_instances_state_policy_witness :
    waitInstances "c1" "paused" =
      WaitOutcome.unsupported ("Unsupported state to wait: " ++ "paused") :=
  (wait_instances_state_policy "c1").1 "paused" (by decide) (by decide)
    (by decide)

/-- C10: when the stopped-or-stopping cluster filter (after max-count
truncation) leaves no candidate, resume_instances returns the empty
mapping and issues no wait, no start-instances and no create_tags call. -/
theorem resume_no_candidates_noop (world : List Instance) (cn : String)
    (tags : List (String × String)) (count : Option Nat)
    (h : resumeCandidates world cn count = []) :
    resumeInstances world cn tags count = ([], ⟨[], [], []⟩) := by
  simp [resumeInstances, h]

/-- C10 witness. -/
theorem resume_no_candidates_noop_witness :
    resumeInstances [] "c1" [("k", "v")] (some 3) = ([], ⟨[], [], []⟩) :=
  resume_no_candidates_noop [] "c1" [("k", "v")] (some 3) (by decide)

/-- C8 counterexample: a call with a non-empty caller tag set but no
matching stopped instance issues zero tag-update calls, not exactly
one. -/
theorem resume_tag_update_counterexample :
    ([("k", "v")] : List (String × String)) ≠ [] ∧
    (resumeInstances [] "c1" [("k", "v")] (some 3)).2.createTagsCalls = [] :=
  ⟨by decide, rfl⟩

/-- C8 amended: an empty caller tag set never produces a tag-update
call; a non-empty tag set produces exactly one batched tag-update
covering exactly the resumed ids, provided at least one instance is
resumed (with no candidates, no provider call of any kind is made). -/
theorem resume_tag_update_policy (world : List Instance) (cn : String)
    (tags : List (String × String)) (count : Option Nat) :
    (tags = [] → (resumeInstances world cn tags count).2.createTagsCalls = []) ∧
    (tags ≠ [] → (resumeInstances world cn tags count).1 ≠ [] →
      (resumeInstances world cn tags count).2.createTagsCalls =
        [((resumeInstances world cn tags count).1.map Prod.fst,
          formatTags tags)]) := by
  constructor
  · intro ht
    subst ht
    by_cases hc : (resumeCandidates world cn count).isEmpty <;>
      simp [resumeInstances, hc]
  · intro ht hres
    by_cases hc : (resumeCandidates world cn count).isEmpty
    · exfalso
      apply hres
      simp [resumeInstances, hc]
      simpa [List.isEmpty_iff] using hc
    · have htb : tags.isEmpty = false := by
        cases tags with
        | nil => exact absurd rfl ht
        | cons p ps => rfl
      simp [resumeInstances, hc, htb, List.map_map]

/-- C8 amended witness. -/
theorem resume_tag_update_policy_witness :
    (resumeInstances [instStopped] "c1" [("k", "v")] (some 3)).2.createTagsCalls =
      [((resumeInstances [instStopped] "c1" [("k", "v")] (some 3)).1.map
          Prod.fst,
        formatTags [("k", "v")])] :=
  (resume_tag_update_policy [instStopped] "c1" [("k", "v")] (some 3)).2
    (by decide) (by decide)

/-
Lemmas about the creation retry loop.
-/

theorem cands_isEmpty_false {cands : List String} (hne : cands ≠ []) :
    cands.isEmpty = false := by
  cases cands with
  | nil => exact absurd rfl hne
  | cons a l => rfl

theorem createLoop_step_success (env : Nat → NodeConfig → ApiResult)
    (cands : List String) (c : NodeConfig) (i rem : Nat)
    (hni : c.networkInterfaces = none) (hne : cands ≠ [])
    (lst : List Instance)
    (he : env i (withSubnet c cands i) = ApiResult.success lst) :
    createLoop env cands c i (Nat.succ rem) =
      ([⟨withSubnet c cands i, ApiResult.success lst⟩],
       CreateOutcome.ok (lst.map (fun n => (n.id, n)))) := by
  have hce : cands.isEmpty = false := cands_isEmpty_false hne
  rw [createLoop]
  simp [hni, hce, he]

theorem createLoop_step_other (env : Nat → NodeConfig → ApiResult)
    (cands : List String) (c : NodeConfig) (i rem : Nat)
    (hni : c.networkInterfaces = none) (hne : cands ≠ []) (e : String)
    (he : env i (withSubnet c cands i) = ApiResult.otherError e) :
    createLoop env cands c i (Nat.succ rem) =
      ([⟨withSubnet c cands i, ApiResult.otherError e⟩],
       CreateOutcome.error e) := by
  have hce : cands.isEmpty = false := cands_isEmpty_false hne
  rw [createLoop]
  simp [hni, hce, he]

theorem createLoop_last_client (env : Nat → NodeConfig → ApiResult)
    (cands : List String) (c : NodeConfig) (i : Nat)
    (hni : c.networkInterfaces = none) (hne : cands ≠ []) (e : String)
    (he : env i (withSubnet c cands i) = ApiResult.clientError e) :
    createLoop env cands c i (Nat.succ 0) =
      ([⟨withSubnet c cands i, ApiResult.clientError e⟩],
       CreateOutcome.exhausted e) := by
  have hce : cands.isEmpty = false := cands_isEmpty_false hne
  rw [createLoop]
  simp [hni, hce, he]

theorem createLoop_step_client (env : Nat → NodeConfig → ApiResult)
    (cands : List String) (c : NodeConfig) (i rem2 : Nat)
    (hni : c.networkInterfaces = none) (hne : cands ≠ []) (e : String)
    (he : env i (withSubnet c cands i) = ApiResult.clientError e) :
    createLoop env cands c i (Nat.succ (Nat.succ rem2)) =
      (⟨withSubnet c cands i, ApiResult.clientError e⟩ ::
        (createLoop env cands (withSubnet c cands i) (i + 1)
          (Nat.succ rem2)).1,
       (createLoop env cands (withSubnet c cands i) (i + 1)
         (Nat.succ rem2)).2) := by
  have hce : cands.isEmpty = false := cands_isEmpty_false hne
  rw [createLoop]
  simp [hni, hce, he]

theorem withSubnet_idem (c : NodeConfig) (cands : List String) (i j : Nat) :
    withSubnet (withSubnet c cands j) cands i = withSubnet c cands i := rfl

theorem withSubnet_networkInterfaces (c : NodeConfig) (cands : List String)
    (i : Nat) : (withSubnet c cands i).networkInterfaces =
      c.networkInterfaces := rfl

theorem traceFrom_length (f : Nat → Attempt) :
    ∀ n i : Nat, (traceFrom f i n).length = n := by
  intro n
  induction n with
  | zero => intro i; rfl
  | succ n ih => intro i; simp [traceFrom, ih]

theorem createLoop_allClientError (env : Nat → NodeConfig → ApiResult)
    (cands : List String) (hne : cands ≠ []) (c0 : NodeConfig)
    (err : Nat → String)
    (henv : ∀ j, env j (withSubnet c0 cands j) =
      ApiResult.clientError (err j)) :
    ∀ rem i c, c.networkInterfaces = none →
      (∀ j, withSubnet c cands j = withSubnet c0 cands j) →
      createLoop env cands c i (Nat.succ rem) =
        (traceFrom (fun j => ⟨withSubnet c0 cands j,
          ApiResult.clientError (err j)⟩) i (Nat.succ rem),
         CreateOutcome.exhausted (err (i + rem))) := by
  intro rem
  induction rem with
  | zero =>
    intro i c hni hsame
    rw [createLoop_last_client env cands c i hni hne (err i)
      (by rw [hsame i]; exact henv i)]
    rw [hsame i]
    simp [traceFrom]
  | succ rem ih =>
    intro i c hni hsame
    rw [createLoop_step_client env cands c i rem hni hne (err i)
      (by rw [hsame i]; exact henv i)]
    rw [hsame i]
    have hni2 : (withSubnet c0 cands i).networkInterfaces = none := by
      rw [← hsame i, withSubnet_networkInterfaces, hni]
    have hrec := ih (i + 1) (withSubnet c0 cands i) hni2
      (fun j => withSubnet_idem c0 cands j i)
    rw [hrec]
    have harith : i + 1 + rem = i + Nat.succ rem := by omega
    rw [harith]
    simp [traceFrom]

theorem createLoop_firstSuccess (env : Nat → NodeConfig → ApiResult)
    (cands : List String) (hne : cands ≠ []) (c0 : NodeConfig)
    (err : Nat → String) (k : Nat) (lst : List Instance)
    (henv : ∀ j, j < k → env j (withSubnet c0 cands j) =
      ApiResult.clientError (err j))
    (hk : env k (withSubnet c0 cands k) = ApiResult.success lst) :
    ∀ d i rem c, i + d = k → d ≤ rem → c.networkInterfaces = none →
      (∀ j, withSubnet c cands j = withSubnet c0 cands j) →
      createLoop env cands c i (Nat.succ rem) =
        (traceFrom (fun j => ⟨withSubnet c0 cands j,
          ApiResult.clientError (err j)⟩) i d ++
          [⟨withSubnet c0 cands k, ApiResult.success lst⟩],
         CreateOutcome.ok (lst.map (fun n => (n.id, n)))) := by
  intro d
  induction d with
  | zero =>
    intro i rem c hik _ hni hsame
    have hik2 : i = k := by omega
    subst hik2
    rw [createLoop_step_success env cands c i rem hni hne lst
      (by rw [hsame i]; exact hk)]
    rw [hsame i]
    simp [traceFrom]
  | succ d ih =>
    intro i rem c hik hd hni hsame
    have hlt : i < k := by omega
    cases rem with
    | zero => omega
    | succ rem2 =>
      rw [createLoop_step_client env cands c i rem2 hni hne (err i)
        (by rw [hsame i]; exact henv i hlt)]
      rw [hsame i]
      have hni2 : (withSubnet c0 cands i).networkInterfaces = none := by
        rw [← hsame i, withSubnet_networkInterfaces, hni]
      have hrec := ih (i + 1) rem2 (withSubnet c0 cands i)
        (by omega) (by omega) hni2
        (fun j => withSubnet_idem c0 cands j i)
      rw [hrec]
      simp [traceFrom]

theorem createLoop_firstOtherError (env : Nat → NodeConfig → ApiResult)
    (cands : List String) (hne : cands ≠ []) (c0 : NodeConfig)
    (err : Nat → String) (k : Nat) (e : String)
    (henv : ∀ j, j < k → env j (withSubnet c0 cands j) =
      ApiResult.clientError (err j))
    (hk : env k (withSubnet c0 cands k) = ApiResult.otherError e) :
    ∀ d i rem c, i + d = k → d ≤ rem → c.networkInterfaces = none →
      (∀ j, withSubnet c cands j = withSubnet c0 cands j) →
      createLoop env cands c i (Nat.succ rem) =
        (traceFrom (fun j => ⟨withSubnet c0 cands j,
          ApiResult.clientError (err j)⟩) i d ++
          [⟨withSubnet c0 cands k, ApiResult.otherError e⟩],
         CreateOutcome.error e) := by
  intro d
  induction d with
  | zero =>
    intro i rem c hik _ hni hsame
    have hik2 : i = k := by omega
    subst hik2
    rw [createLoop_step_other env cands c i rem hni hne e
      (by rw [hsame i]; exact hk)]
    rw [hsame i]
    simp [traceFrom]
  | succ d ih =>
    intro i rem c hik hd hni hsame
    have hlt : i < k := by omega
    cases rem with
    | zero => omega
    | succ rem2 =>
      rw [createLoop_step_client env cands c i rem2 hni hne (err i)
        (by rw [hsame i]; exact henv i hlt)]
      rw [hsame i]
      have hni2 : (withSubnet c0 cands i).networkInterfaces = none := by
        rw [← hsame i, withSubnet_networkInterfaces, hni]
      have hrec := ih (i + 1) rem2 (withSubnet c0 cands i)
        (by omega) (by omega) hni2
        (fun j => withSubnet_idem c0 cands j i)
      rw [hrec]
      simp [traceFrom]

theorem createInstances_eq_loop (env : Nat → NodeConfig → ApiResult)
    (cn : String) (conf : NodeConfig) (tags : List (String × String))
    (count : Nat) (cands : List String) (hsub : conf.subnetIds = some cands) :
    createInstances env cn conf tags count =
      createLoop env cands (submittedConf cn conf tags count) 0
        (max BOTO_CREATE_MAX_RETRIES cands.length) := by
  simp [createInstances, submittedConf, hsub]

theorem submittedConf_networkInterfaces (cn : String) (conf : NodeConfig)
    (tags : List (String × String)) (count : Nat) :
    (submittedConf cn conf tags count).networkInterfaces =
      conf.networkInterfaces := rfl

/-- C2: retry policy of create.  With n non-empty candidate subnets and
no explicit network interfaces: when every attempt fails with a client
error, create makes exactly max(5, n) attempts, pinning the subnet of
attempt i to candidate i mod n, and fails with the exhausted-attempts
error wrapping the last underlying client error; a success on attempt
k within the budget returns immediately after exactly k + 1 attempts;
a non-client error on attempt k propagates immediately after exactly
k + 1 attempts. -/
theorem create_retry_rotation_policy (env : Nat → NodeConfig → ApiResult)
    (cn : String) (conf : NodeConfig) (tags : List (String × String))
    (count : Nat) (cands : List String)
    (hsub : conf.subnetIds = some cands) (hne : cands ≠ [])
    (hNI : conf.networkInterfaces = none) :
    (∀ err : Nat → String,
      (∀ j, env j (attemptConfAt cn conf tags count cands j) =
        ApiResult.clientError (err j)) →
      createInstances env cn conf tags count =
        (traceFrom (fun j => ⟨attemptConfAt cn conf tags count cands j,
          ApiResult.clientError (err j)⟩) 0
          (max BOTO_CREATE_MAX_RETRIES cands.length),
         CreateOutcome.exhausted
           (err (max BOTO_CREATE_MAX_RETRIES cands.length - 1)))) ∧
    (∀ (k : Nat) (lst : List Instance) (err : Nat → String),
      k < max BOTO_CREATE_MAX_RETRIES cands.length →
      (∀ j, j < k → env j (attemptConfAt cn conf tags count cands j) =
        ApiResult.clientError (err j)) →
      env k (attemptConfAt cn conf tags count cands k) =
        ApiResult.success lst →
      createInstances env cn conf tags count =
        (traceFrom (fun j => ⟨attemptConfAt cn conf tags count cands j,
          ApiResult.clientError (err j)⟩) 0 k ++
          [⟨attemptConfAt cn conf tags count cands k,
            ApiResult.success lst⟩],
         CreateOutcome.ok (lst.map (fun n => (n.id, n))))) ∧
    (∀ (k : Nat) (e : String) (err : Nat → String),
      k < max BOTO_CREATE_MAX_RETRIES cands.length →
      (∀ j, j < k → env j (attemptConfAt cn conf tags count cands j) =
        ApiResult.clientError (err j)) →
      env k (attemptConfAt cn conf tags count cands k) =
        ApiResult.otherError e →
      createInstances env cn conf tags count =
        (traceFrom (fun j => ⟨attemptConfAt cn conf tags count cands j,
          ApiResult.clientError (err j)⟩) 0 k ++
          [⟨attemptConfAt cn conf tags count cands k,
            ApiResult.otherError e⟩],
         CreateOutcome.error e)) ∧
    (∀ (f : Nat → Attempt) (n i : Nat), (traceFrom f i n).length = n) ∧
    (∀ i : Nat, (attemptConfAt cn conf tags count cands i).subnetId =
      some (cands.getD (i % cands.length) "")) := by
  have hb5 : BOTO_CREATE_MAX_RETRIES = 5 := rfl
  have hM : 0 < max BOTO_CREATE_MAX_RETRIES cands.length := by
    have h5 := le_max_left BOTO_CREATE_MAX_RETRIES cands.length
    omega
  obtain ⟨M, hMeq⟩ : ∃ M,
      max BOTO_CREATE_MAX_RETRIES cands.length = Nat.succ M :=
    ⟨max BOTO_CREATE_MAX_RETRIES cands.length - 1, by omega⟩
  have hnic : (submittedConf cn conf tags count).networkInterfaces = none := by
    rw [submittedConf_networkInterfaces, hNI]
  refine ⟨?_, ?_, ?_, fun f n i => traceFrom_length f n i, fun i => rfl⟩
  · intro err henv
    rw [createInstances_eq_loop env cn conf tags count cands hsub, hMeq]
    have hres := createLoop_allClientError env cands hne
      (submittedConf cn conf tags count) err (fun j => henv j) M 0
      (submittedConf cn conf tags count) hnic (fun j => rfl)
    have harith : Nat.succ M - 1 = 0 + M := by omega
    rw [harith]
    exact hres
  · intro k lst err hk henv hsucc
    rw [createInstances_eq_loop env cn conf tags count cands hsub, hMeq]
    exact createLoop_firstSuccess env cands hne
      (submittedConf cn conf tags count) err k lst
      (fun j hj => henv j hj) hsucc k 0 M
      (submittedConf cn conf tags count) (by omega) (by omega) hnic
      (fun j => rfl)
  · intro k e err hk henv hother
    rw [createInstances_eq_loop env cn conf tags count cands hsub, hMeq]
    exact createLoop_firstOtherError env cands hne
      (submittedConf cn conf tags count) err k e
      (fun j hj => henv j hj) hother k 0 M
      (submittedConf cn conf tags count) (by omega) (by omega) hnic
      (fun j => rfl)

/-- C2 witness. -/
theorem create_retry_rotation_policy_witness :
    createInstances envFail "c1" cfgTwoSubnets [] 1 =
      (traceFrom (fun j => ⟨attemptConfAt "c1" cfgTwoSubnets [] 1
        ["s1", "s2"] j, ApiResult.clientError "boom"⟩) 0
        (max BOTO_CREATE_MAX_RETRIES ["s1", "s2"].length),
       CreateOutcome.exhausted "boom") :=
  (create_retry_rotation_policy envFail "c1" cfgTwoSubnets [] 1
    ["s1", "s2"] rfl (by decide) rfl).1 (fun _ => "boom") (fun j => rfl)

theorem createLoop_ok_fields (env : Nat → NodeConfig → ApiResult)
    (cands : List String) :
    ∀ rem c i m, (createLoop env cands c i rem).2 = CreateOutcome.ok m →
      ∃ j cc lst, env j cc = ApiResult.success lst ∧
        m = lst.map (fun n => (n.id, n)) ∧
        cc.minCount = c.minCount ∧ cc.maxCount = c.maxCount := by
  intro rem
  induction rem with
  | zero =>
    intro c i m h
    rw [createLoop] at h
    simp at h
  | succ rem ih =>
    intro c i m h
    rw [createLoop] at h
    by_cases hg : (c.networkInterfaces.isNone && cands.isEmpty) = true
    · rw [if_pos hg] at h
      simp at h
    · rw [if_neg hg] at h
      have hfields : (if c.networkInterfaces.isSome then stripSG c
          else withSubnet c cands i).minCount = c.minCount ∧
          (if c.networkInterfaces.isSome then stripSG c
          else withSubnet c cands i).maxCount = c.maxCount := by
        by_cases hs : c.networkInterfaces.isSome = true <;>
          simp [hs, stripSG, withSubnet]
      cases he : env i (if c.networkInterfaces.isSome then stripSG c
        else withSubnet c cands i) with
      | success lst =>
        simp only [he] at h
        simp at h
        exact ⟨i, _, lst, he, h.symm, hfields.1, hfields.2⟩
      | clientError e =>
        cases rem with
        | zero =>
          simp only [he] at h
          simp at h
        | succ rem2 =>
          simp only [he] at h
          obtain ⟨j, cc2, lst, h1, h2, h3, h4⟩ := ih _ _ _ h
          exact ⟨j, cc2, lst, h1, h2, h3.trans hfields.1,
            h4.trans hfields.2⟩
      | otherError e =>
        simp only [he] at h
        simp at h

/-- C1 amended: for a provider whose successes respect the submitted
MinCount/MaxCount bounds, a successful create returns all created
instances keyed by their assigned ids, and because the submitted spec
carries MinCount 1 and MaxCount count, the mapping holds between 1 and
count instances (partial success below the requested count is
possible). -/
theorem create_returns_all_created_within_bounds
    (env : Nat → NodeConfig → ApiResult) (cn : String) (conf : NodeConfig)
    (tags : List (String × String)) (count : Nat)
    (hEnv : ∀ i c lst, env i c = ApiResult.success lst →
      ∀ mn mx, c.minCount = some mn → c.maxCount = some mx →
        mn ≤ lst.length ∧ lst.length ≤ mx)
    (m : List (String × Instance))
    (h : (createInstances env cn conf tags count).2 = CreateOutcome.ok m) :
    1 ≤ m.length ∧ m.length ≤ count ∧ ∀ p ∈ m, p.1 = p.2.id := by
  cases hsub : conf.subnetIds with
  | none => simp [createInstances, hsub] at h
  | some cands =>
    rw [createInstances_eq_loop env cn conf tags count cands hsub] at h
    obtain ⟨j, cc, lst, he, hm, hmn, hmx⟩ :=
      createLoop_ok_fields env cands _ _ _ _ h
    have h1 : cc.minCount = some 1 := hmn
    have h2 : cc.maxCount = some count := hmx
    obtain ⟨hlo, hhi⟩ := hEnv j cc lst he 1 count h1 h2
    subst hm
    refine ⟨by simpa using hlo, by simpa using hhi, ?_⟩
    intro p hp
    obtain ⟨n, _, rfl⟩ := List.mem_map.mp hp
    rfl

/-- C1 amended witness. -/
theorem create_returns_all_created_within_bounds_witness :
    1 ≤ ([("i-1", instPending)] : List (String × Instance)).length ∧
    ([("i-1", instPending)] : List (String × Instance)).length ≤ 2 ∧
    ∀ p ∈ ([("i-1", instPending)] : List (String × Instance)),
      p.1 = p.2.id := by
  refine create_returns_all_created_within_bounds envBounded "c1"
    cfgOneSubnet [] 2 ?_ [("i-1", instPending)] rfl
  intro i c lst hsucc mn mx hmn hmx
  by_cases hcond : (c.minCount == some 1 && c.maxCount == some 2) = true
  · have hlst : lst = [instPending] := by
      simp [envBounded, hcond] at hsucc
      exact hsucc.symm
    have hc1 : c.minCount = some 1 := by
      have := (Bool.and_eq_true_iff.mp hcond).1
      simpa using this
    have hc2 : c.maxCount = some 2 := by
      have := (Bool.and_eq_true_iff.mp hcond).2
      simpa using this
    rw [hc1] at hmn
    rw [hc2] at hmx
    subst hlst
    simp at hmn hmx
    simp only [List.length_singleton]
    omega
  · simp [envBounded, hcond] at hsucc

/-- C1 counterexample: the launch spec create submits carries MinCount 1
and MaxCount 2, and a provider success that launches a single instance
(permitted by those bounds) makes create return successfully with one
instance although two were requested, so successful creation is not
all-or-nothing for the requested count. -/
theorem create_partial_success_counterexample :
    (createInstances envUnderCount "c1" cfgOneSubnet [] 2).2 =
      CreateOutcome.ok [("i-1", instPending)] ∧
    ([("i-1", instPending)] : List (String × Instance)).length ≠ 2 ∧
    (createInstances envUnderCount "c1" cfgOneSubnet [] 2).1.map
        (fun a => (a.conf.minCount, a.conf.maxCount, a.result)) =
      [(some 1, some 2, ApiResult.success [instPending])] :=
  ⟨rfl, by decide, rfl⟩

/-- C3: ensure_count shortfall arithmetic.  The number of creations
requested equals desired count minus resumed count (zero when the
resumed count covers the desired count, in which case no create call is
made and the resumed mapping is returned as is); when resume is not
permitted the resumed mapping is empty; and a successful call returns
the union (dict update) of the resumed and created mappings. -/
theorem ensure_count_shortfall (env : Nat → NodeConfig → ApiResult)
    (world : List Instance) (cn : String) (conf : NodeConfig)
    (tags : List (String × String)) (count : Nat) (resumeFlag : Bool)
    (tr : EnsureTrace) (out : EnsureOutcome)
    (h : createOrResumeInstances env world cn conf tags count resumeFlag =
      (tr, out)) :
    tr.createRequested.getD 0 = count - tr.resumed.length ∧
    (tr.resumed.length < count →
      tr.createRequested = some (count - tr.resumed.length)) ∧
    (count ≤ tr.resumed.length →
      tr.createRequested = none ∧ out = EnsureOutcome.ok tr.resumed) ∧
    (resumeFlag = false → tr.resumed = []) ∧
    (∀ nodes, out = EnsureOutcome.ok nodes →
      ∃ created, nodes = dictUpdate tr.resumed created ∧
        (tr.createRequested = none → created = [])) := by
  simp only [createOrResumeInstances] at h
  set R : List (String × Instance) :=
    (if resumeFlag then
      resumeInstances world cn (sortPairs tags) (some count)
    else ([], ⟨[], [], []⟩)).1 with hR
  by_cases hpos : ((count : Int) - (R.length : Int) > 0)
  · rw [if_pos hpos] at h
    cases hcr : (createInstances env cn conf (sortPairs tags)
        ((count : Int) - (R.length : Int)).toNat).2 with
    | ok createdNodes =>
      rw [hcr] at h
      injection h with h1 h2
      subst h1
      subst h2
      have hnat : ((count : Int) - (R.length : Int)).toNat =
          count - R.length := by omega
      refine ⟨by simp [hnat], fun _ => by simp [hnat],
        fun hle => absurd hpos (by simp at hle; omega), ?_, ?_⟩
      · intro hf
        rw [hf] at hR
        simpa using hR
      · intro nodes hn
        injection hn with hn2
        exact ⟨createdNodes, hn2.symm, fun hc => by simp at hc⟩
    | exhausted e =>
      rw [hcr] at h
      injection h with h1 h2
      subst h1
      subst h2
      have hnat : ((count : Int) - (R.length : Int)).toNat =
          count - R.length := by omega
      refine ⟨by simp [hnat], fun _ => by simp [hnat],
        fun hle => absurd hpos (by simp at hle; omega), ?_, ?_⟩
      · intro hf
        rw [hf] at hR
        simpa using hR
      · intro nodes hn
        simp at hn
    | error e =>
      rw [hcr] at h
      injection h with h1 h2
      subst h1
      subst h2
      have hnat : ((count : Int) - (R.length : Int)).toNat =
          count - R.length := by omega
      refine ⟨by simp [hnat], fun _ => by simp [hnat],
        fun hle => absurd hpos (by simp at hle; omega), ?_, ?_⟩
      · intro hf
        rw [hf] at hR
        simpa using hR
      · intro nodes hn
        simp at hn
    | keyError =>
      rw [hcr] at h
      injection h with h1 h2
      subst h1
      subst h2
      have hnat : ((count : Int) - (R.length : Int)).toNat =
          count - R.length := by omega
      refine ⟨by simp [hnat], fun _ => by simp [hnat],
        fun hle => absurd hpos (by simp at hle; omega), ?_, ?_⟩
      · intro hf
        rw [hf] at hR
        simpa using hR
      · intro nodes hn
        simp at hn
    | indexError =>
      rw [hcr] at h
      injection h with h1 h2
      subst h1
      subst h2
      have hnat : ((count : Int) - (R.length : Int)).toNat =
          count - R.length := by omega
      refine ⟨by simp [hnat], fun _ => by simp [hnat],
        fun hle => absurd hpos (by simp at hle; omega), ?_, ?_⟩
      · intro hf
        rw [hf] at hR
        simpa using hR
      · intro nodes hn
        simp at hn
    | fellThrough =>
      rw [hcr] at h
      injection h with h1 h2
      subst h1
      subst h2
      have hnat : ((count : Int) - (R.length : Int)).toNat =
          count - R.length := by omega
      refine ⟨by simp [hnat], fun _ => by simp [hnat],
        fun hle => absurd hpos (by simp at hle; omega), ?_, ?_⟩
      · intro hf
        rw [hf] at hR
        simpa using hR
      · intro nodes hn
        simp at hn
  · rw [if_neg hpos] at h
    injection h with h1 h2
    subst h1
    subst h2
    refine ⟨by simp; omega, fun hlt => by simp at hlt; exact absurd hpos (by omega),
      fun _ => ⟨rfl, rfl⟩, ?_, ?_⟩
    · intro hf
      rw [hf] at hR
      simpa using hR
    · intro nodes hn
      injection hn with hn2
      exact ⟨[], by simp [dictUpdate, hn2], fun _ => rfl⟩

/-- C3 witness. -/
theorem ensure_count_shortfall_witness :
    ((createOrResumeInstances envUnderCount [instStopped] "c1" cfgOneSubnet
      [] 3 true).1).createRequested =
      some (3 - ((createOrResumeInstances envUnderCount [instStopped] "c1"
        cfgOneSubnet [] 3 true).1).resumed.length) :=
  (ensure_count_shortfall envUnderCount [instStopped] "c1" cfgOneSubnet
    [] 3 true
    (createOrResumeInstances envUnderCount [instStopped] "c1" cfgOneSubnet
      [] 3 true).1
    (createOrResumeInstances envUnderCount [instStopped] "c1" cfgOneSubnet
      [] 3 true).2 rfl).2.1 (by decide)

/-
Lemmas for the cluster-identity tag invariant.
-/

theorem dictInsert_key_mem {β : Type} (d : List (String × β)) (k0 : String)
    (h : ∃ v, (k0, v) ∈ d) (k1 : String) (v1 : β) :
    ∃ v, (k0, v) ∈ dictInsert d k1 v1 := by
  obtain ⟨v, hv⟩ := h
  unfold dictInsert
  by_cases hc : d.any (fun q => q.1 == k1) = true
  · rw [if_pos hc]
    by_cases hk : k0 = k1
    · refine ⟨v1, ?_⟩
      have := List.mem_map_of_mem (fun q => if q.1 == k1 then (k1, v1) else q) hv
      simpa [hk] using this
    · refine ⟨v, ?_⟩
      have := List.mem_map_of_mem (fun q => if q.1 == k1 then (k1, v1) else q) hv
      simpa [hk] using this
  · rw [if_neg hc]
    exact ⟨v, List.mem_append_left _ hv⟩

theorem foldl_dictInsert_key_mem (ps : List (String × String)) (k0 : String) :
    ∀ d : List (String × String), (∃ v, (k0, v) ∈ d) →
      ∃ v, (k0, v) ∈ ps.foldl (fun d p => dictInsert d p.1 p.2) d := by
  induction ps with
  | nil => intro d h; exact h
  | cons p ps ih =>
    intro d h
    exact ih (dictInsert d p.1 p.2) (dictInsert_key_mem d k0 h p.1 p.2)

theorem buildTags_cluster_key (cn : String) (tags : List (String × String)) :
    ∃ v, (TAG_RAY_CLUSTER_NAME, v) ∈ buildTags cn tags := by
  have hbase : dictInsert (dictInsert ([] : List (String × String)) "Name" cn)
      TAG_RAY_CLUSTER_NAME cn = [("Name", cn), (TAG_RAY_CLUSTER_NAME, cn)] := by
    simp [dictInsert, TAG_RAY_CLUSTER_NAME]
  have hb : buildTags cn tags = tags.foldl (fun d p => dictInsert d p.1 p.2)
      [("Name", cn), (TAG_RAY_CLUSTER_NAME, cn)] := by
    simp only [buildTags, List.cons_append, List.nil_append, List.foldl_cons]
    rw [hbase]
  rw [hb]
  exact foldl_dictInsert_key_mem tags TAG_RAY_CLUSTER_NAME
    [("Name", cn), (TAG_RAY_CLUSTER_NAME, cn)] ⟨cn, by simp⟩

theorem tagLookup_isSome_of_mem (b : List Tag) (k0 : String)
    (h : ∃ v, (⟨k0, v⟩ : Tag) ∈ b) : ∃ v, tagLookup b k0 = some v := by
  induction b with
  | nil => obtain ⟨v, hv⟩ := h; cases hv
  | cons t ts ih =>
    by_cases hk : t.key = k0
    · exact ⟨t.value, by simp [tagLookup, hk]⟩
    · obtain ⟨v, hv⟩ := h
      rcases List.mem_cons.mp hv with h1 | h1
      · exact absurd (by rw [← h1]) hk
      · obtain ⟨v2, hv2⟩ := ih ⟨v, h1⟩
        exact ⟨v2, by simp [tagLookup, hk, hv2]⟩

theorem mem_of_tagLookup (b : List Tag) (k0 : String) (v : String)
    (h : tagLookup b k0 = some v) : (⟨k0, v⟩ : Tag) ∈ b := by
  induction b with
  | nil => simp [tagLookup] at h
  | cons t ts ih =>
    by_cases hk : t.key = k0
    · simp [tagLookup, hk] at h
      subst h
      subst hk
      exact List.mem_cons_self t ts
    · simp [tagLookup, hk] at h
      exact List.mem_cons_of_mem t (ih h)

theorem mergeInstanceTags_keeps_key (b : List Tag) (u : List TagSpec)
    (k0 : String) (h : ∃ v, tagLookup b k0 = some v) :
    ∃ v, tagLookup (mergeInstanceTags b u) k0 = some v := by
  obtain ⟨v, hv⟩ := h
  rw [mergeInstanceTags_eq_foldl, foldl_applyUserTag_lookup]
  cases hl : lastValueOf (flatInstanceTags u) k0 with
  | some w => exact ⟨w, rfl⟩
  | none => exact ⟨v, hv⟩

theorem createLoop_trace_tagSpecs (env : Nat → NodeConfig → ApiResult)
    (cands : List String) :
    ∀ rem c i, ∀ a ∈ (createLoop env cands c i rem).1,
      a.conf.tagSpecifications = c.tagSpecifications := by
  intro rem
  induction rem with
  | zero =>
    intro c i a ha
    rw [createLoop] at ha
    simp at ha
  | succ rem ih =>
    intro c i a ha
    rw [createLoop] at ha
    by_cases hg : (c.networkInterfaces.isNone && cands.isEmpty) = true
    · rw [if_pos hg] at ha
      simp at ha
    · rw [if_neg hg] at ha
      have htags : (if c.networkInterfaces.isSome then stripSG c
          else withSubnet c cands i).tagSpecifications =
          c.tagSpecifications := by
        by_cases hs : c.networkInterfaces.isSome = true <;>
          simp [hs, stripSG, withSubnet]
      cases he : env i (if c.networkInterfaces.isSome then stripSG c
        else withSubnet c cands i) with
      | success lst =>
        simp only [he] at ha
        simp at ha
        rw [ha, htags]
      | clientError e =>
        cases rem with
        | zero =>
          simp only [he] at ha
          simp at ha
          rw [ha, htags]
        | succ rem2 =>
          simp only [he] at ha
          simp only [List.mem_cons] at ha
          rcases ha with ha | ha
          · rw [ha, htags]
          · rw [ih _ _ a ha, htags]
      | otherError e =>
        simp only [he] at ha
        simp at ha
        rw [ha, htags]

theorem resumeInstances_fst (world : List Instance) (cn : String)
    (tags : List (String × String)) (count : Option Nat) :
    (resumeInstances world cn tags count).1 =
      (resumeCandidates world cn count).map (fun n => (n.id, n)) := by
  by_cases hc : (resumeCandidates world cn count).isEmpty <;>
    simp [resumeInstances, hc]

theorem matchesFilter_clusterTag (inst : Instance) (cn : String) :
    matchesFilter inst ⟨"tag:" ++ TAG_RAY_CLUSTER_NAME, [cn]⟩ =
      inst.tags.any
        (fun t => t.key == TAG_RAY_CLUSTER_NAME && t.value == cn) := by
  have hname : ("tag:" ++ TAG_RAY_CLUSTER_NAME : String) =
      "tag:ray-cluster-name" := rfl
  have h1 : (("tag:ray-cluster-name" : String) ==
      "instance-state-name") = false := by decide
  have h2 : (("tag:ray-cluster-name" : String).data.take 4 ==
      "tag:".data) = true := by decide
  have h3 : String.mk (("tag:ray-cluster-name" : String).data.drop 4) =
      TAG_RAY_CLUSTER_NAME := by decide
  simp [matchesFilter, hname, h1, h2, h3, TAG_RAY_CLUSTER_NAME]

theorem resumeCandidates_cluster_tag (world : List Instance) (cn : String)
    (count : Option Nat) (inst : Instance)
    (h : inst ∈ resumeCandidates world cn count) :
    (⟨TAG_RAY_CLUSTER_NAME, cn⟩ : Tag) ∈ inst.tags := by
  have hmemf : inst ∈ filterInstances world (resumeFilters cn) := by
    unfold resumeCandidates at h
    cases count with
    | none => exact h
    | some c => exact List.mem_of_mem_take h
  have hall := (List.mem_filter.mp hmemf).2
  have htag : matchesFilter inst
      ⟨"tag:" ++ TAG_RAY_CLUSTER_NAME, [cn]⟩ = true := by
    have := (List.all_eq_true.mp hall)
      ⟨"tag:" ++ TAG_RAY_CLUSTER_NAME, [cn]⟩ (by simp [resumeFilters])
    exact this
  rw [matchesFilter_clusterTag] at htag
  obtain ⟨t, htm, htp⟩ := List.any_eq_true.mp htag
  have hk : t.key = TAG_RAY_CLUSTER_NAME := by
    have := (Bool.and_eq_true_iff.mp htp).1
    simpa using this
  have hv : t.value = cn := by
    have := (Bool.and_eq_true_iff.mp htp).2
    simpa using this
  have : t = ⟨TAG_RAY_CLUSTER_NAME, cn⟩ := by
    cases t
    simp_all
  rw [← this]
  exact htm

/-- C6: every instance created or resumed carries the cluster-identity
tag.  Every launch spec create submits to the provider has an
instance-type head tag-spec entry whose tags contain the
cluster-identity key (the merge may overwrite its value but never
removes the key), and every instance resume returns matched the
cluster-identity tag filter, hence carries the tag with the cluster
name as value. -/
theorem cluster_identity_tag_invariant (env : Nat → NodeConfig → ApiResult)
    (cn : String) (conf : NodeConfig) (tags : List (String × String))
    (count : Nat) (world : List Instance)
    (rtags : List (String × String)) (rcount : Option Nat) :
    (∀ a ∈ (createInstances env cn conf tags count).1,
      ∃ hd rest2, a.conf.tagSpecifications = some (hd :: rest2) ∧
        hd.resourceType = "instance" ∧
        ∃ v, (⟨TAG_RAY_CLUSTER_NAME, v⟩ : Tag) ∈ hd.tags) ∧
    (∀ p ∈ (resumeInstances world cn rtags rcount).1,
      (⟨TAG_RAY_CLUSTER_NAME, cn⟩ : Tag) ∈ p.2.tags) := by
  constructor
  · intro a ha
    cases hsub : conf.subnetIds with
    | none => simp [createInstances, hsub] at ha
    | some cands =>
      rw [createInstances_eq_loop env cn conf tags count cands hsub] at ha
      have htg := createLoop_trace_tagSpecs env cands _ _ _ a ha
      refine ⟨⟨"instance", mergeInstanceTags (formatTags (buildTags cn tags))
          (conf.tagSpecifications.getD [])⟩,
        appendedSpecs (conf.tagSpecifications.getD []), ?_, rfl, ?_⟩
      · rw [htg]
        rfl
      · obtain ⟨v0, hv0⟩ := buildTags_cluster_key cn tags
        have hmem : (⟨TAG_RAY_CLUSTER_NAME, v0⟩ : Tag) ∈
            formatTags (buildTags cn tags) := by
          have := List.mem_map_of_mem
            (fun p : String × String => (⟨p.1, p.2⟩ : Tag)) hv0
          simpa [formatTags] using this
        obtain ⟨v1, hv1⟩ := tagLookup_isSome_of_mem _ _ ⟨v0, hmem⟩
        obtain ⟨v2, hv2⟩ := mergeInstanceTags_keeps_key
          (formatTags (buildTags cn tags)) (conf.tagSpecifications.getD [])
          TAG_RAY_CLUSTER_NAME ⟨v1, hv1⟩
        exact ⟨v2, mem_of_tagLookup _ _ _ hv2⟩
  · intro p hp
    rw [resumeInstances_fst] at hp
    obtain ⟨n, hn, hpn⟩ := List.mem_map.mp hp
    have := resumeCandidates_cluster_tag world cn rcount n hn
    rw [← hpn]
    exact this

/-- C6 witness. -/
theorem cluster_identity_tag_invariant_witness :
    (∃ hd rest2,
      ((createInstances envUnderCount "c1" cfgOneSubnet [] 1).1.getD 0
        default).conf.tagSpecifications = some (hd :: rest2) ∧
      hd.resourceType = "instance" ∧
      ∃ v, (⟨TAG_RAY_CLUSTER_NAME, v⟩ : Tag) ∈ hd.tags) ∧
    (⟨TAG_RAY_CLUSTER_NAME, "c1"⟩ : Tag) ∈
      (("i-9", instStopped) : String × Instance).2.tags := by
  constructor
  · exact (cluster_identity_tag_invariant envUnderCount "c1" cfgOneSubnet
      [] 1 [instStopped] [] (some 3)).1 _ (by decide)
  · exact (cluster_identity_tag_invariant envUnderCount "c1" cfgOneSubnet
      [] 1 [instStopped] [] (some 3)).2 ("i-9", instStopped) (by decide)

/-
Lemmas about the heap-level embedding, for the frame property of create.
-/

namespace Heap

theorem getTag_append_lt (s1 s2 : Store) :
    ∀ r, r < s1.length → getTag (s1 ++ s2) r = getTag s1 r := by
  induction s1 with
  | nil => intro r hr; simp at hr
  | cons t ts ih =>
    intro r hr
    cases r with
    | zero => rfl
    | succ r2 =>
      have : r2 < ts.length := by simpa using hr
      simpa [getTag] using ih r2 this

theorem getTag_setValue_ne (s : Store) :
    ∀ r v q, q ≠ r → getTag (setValue s r v) q = getTag s q := by
  induction s with
  | nil => intro r v q _; rfl
  | cons t ts ih =>
    intro r v q hq
    cases r with
    | zero =>
      cases q with
      | zero => exact absurd rfl hq
      | succ q2 => rfl
    | succ r2 =>
      cases q with
      | zero => rfl
      | succ q2 =>
        have : q2 ≠ r2 := fun hh => hq (by rw [hh])
        simpa [setValue, getTag] using ih r2 v q2 this

theorem key_setValue (s : Store) :
    ∀ r v q, (getTag (setValue s r v) q).key = (getTag s q).key := by
  induction s with
  | nil => intro r v q; rfl
  | cons t ts ih =>
    intro r v q
    cases r with
    | zero =>
      cases q with
      | zero => rfl
      | succ q2 => rfl
    | succ r2 =>
      cases q with
      | zero => rfl
      | succ q2 => simpa [setValue, getTag] using ih r2 v q2

theorem refsFrom_ge : ∀ n start r, r ∈ refsFrom start n → start ≤ r := by
  intro n
  induction n with
  | zero => intro start r hr; cases hr
  | succ n ih =>
    intro start r hr
    rcases List.mem_cons.mp hr with h1 | h1
    · omega
    · have := ih (start + 1) r h1
      omega

theorem applyUserTagH_key (ut : Nat) :
    ∀ (bts : List Nat) (s : Store) (q : Nat),
      (getTag (applyUserTagH s bts ut).1 q).key = (getTag s q).key := by
  intro bts
  induction bts with
  | nil => intro s q; rfl
  | cons r rs ih =>
    intro s q
    by_cases hc : ((getTag s ut).key == (getTag s r).key) = true
    · simp only [applyUserTagH, hc, if_pos]
      exact key_setValue s r (getTag s ut).value q
    · simp only [applyUserTagH, hc]
      simpa using ih s q

theorem applyUserTagH_frame (N : Nat) (done : List String) (ut : Nat) :
    ∀ (bts : List Nat) (s : Store),
      (∀ r ∈ bts, r < N → (getTag s r).key ∈ done) →
      (getTag s ut).key ∉ done →
      (∀ q, q < N → getTag (applyUserTagH s bts ut).1 q = getTag s q) ∧
      (∀ r ∈ (applyUserTagH s bts ut).2, r < N →
        (getTag s r).key ∈ done ∨ (getTag s r).key = (getTag s ut).key) := by
  intro bts
  induction bts with
  | nil =>
    intro s _ _
    refine ⟨fun q _ => rfl, ?_⟩
    intro r hr _
    have : r = ut := by simpa [applyUserTagH] using hr
    subst this
    exact Or.inr rfl
  | cons r rs ih =>
    intro s hb hnew
    by_cases hc : ((getTag s ut).key == (getTag s r).key) = true
    · have hkeq : (getTag s ut).key = (getTag s r).key := by simpa using hc
      have hrN : ¬ r < N := by
        intro hr
        exact hnew (hkeq ▸ hb r (List.mem_cons_self r rs) hr)
      constructor
      · intro q hq
        have hqr : q ≠ r := fun hh => hrN (hh ▸ hq)
        simp only [applyUserTagH, hc, if_pos]
        exact getTag_setValue_ne s r (getTag s ut).value q hqr
      · intro r2 hr2 hr2N
        simp only [applyUserTagH, hc, if_pos] at hr2
        exact Or.inl (hb r2 hr2 hr2N)
    · have hbtail : ∀ r2 ∈ rs, r2 < N → (getTag s r2).key ∈ done :=
        fun r2 h2 => hb r2 (List.mem_cons_of_mem r h2)
      obtain ⟨hf, hm⟩ := ih s hbtail hnew
      constructor
      · intro q hq
        simp only [applyUserTagH, hc]
        simpa using hf q hq
      · intro r2 hr2 hr2N
        simp only [applyUserTagH, hc] at hr2
        cases hr2 with
        | head => exact Or.inl (hb r (List.mem_cons_self r rs) hr2N)
        | tail _ h1 => exact hm r2 h1 hr2N

theorem applyFold_frame (N : Nat) :
    ∀ (uts : List Nat) (s : Store) (bts : List Nat) (done : List String),
      (∀ r ∈ bts, r < N → (getTag s r).key ∈ done) →
      (uts.map (fun u => (getTag s u).key)).Nodup →
      (∀ u ∈ uts, (getTag s u).key ∉ done) →
      ∀ q, q < N →
        getTag ((uts.foldl (fun acc ut => applyUserTagH acc.1 acc.2 ut)
          (s, bts)).1) q = getTag s q := by
  intro uts
  induction uts with
  | nil => intro s bts done _ _ _ q _; rfl
  | cons ut uts ih =>
    intro s bts done hb hnd hdis q hq
    obtain ⟨hframe, hmem⟩ := applyUserTagH_frame N done ut bts s hb
      (hdis ut (List.mem_cons_self ut uts))
    have hkeys : ∀ q2, (getTag (applyUserTagH s bts ut).1 q2).key =
        (getTag s q2).key := applyUserTagH_key ut bts s
    rw [List.map_cons, List.nodup_cons] at hnd
    obtain ⟨hni, htail⟩ := hnd
    have hb2 : ∀ r ∈ (applyUserTagH s bts ut).2, r < N →
        (getTag (applyUserTagH s bts ut).1 r).key ∈
          done ++ [(getTag s ut).key] := by
      intro r hr hrN
      rw [hkeys r]
      rcases hmem r hr hrN with h1 | h1
      · exact List.mem_append_left _ h1
      · exact List.mem_append_right _ (by simp [h1])
    have hnd2 : (uts.map
        (fun u => (getTag (applyUserTagH s bts ut).1 u).key)).Nodup := by
      have heq : uts.map (fun u => (getTag (applyUserTagH s bts ut).1 u).key) =
          uts.map (fun u => (getTag s u).key) :=
        List.map_congr_left (fun u _ => hkeys u)
      rw [heq]
      exact htail
    have hdis2 : ∀ u ∈ uts,
        (getTag (applyUserTagH s bts ut).1 u).key ∉
          done ++ [(getTag s ut).key] := by
      intro u hu hmem2
      rw [hkeys u] at hmem2
      rcases List.mem_append.mp hmem2 with h1 | h1
      · exact hdis u (List.mem_cons_of_mem ut hu) h1
      · have h2 : (getTag s u).key = (getTag s ut).key := by simpa using h1
        exact hni (h2 ▸ List.mem_map_of_mem (fun u => (getTag s u).key) hu)
    have hrec := ih (applyUserTagH s bts ut).1 (applyUserTagH s bts ut).2
      (done ++ [(getTag s ut).key]) hb2 hnd2 hdis2 q hq
    rw [List.foldl_cons]
    exact hrec.trans (hframe q hq)

theorem mergeInstanceTagsH_eq_foldl (specs : List TagSpecH) :
    ∀ (s : Store) (bts : List Nat),
      mergeInstanceTagsH s bts specs =
        (flatInstanceRefs specs).foldl
          (fun acc ut => applyUserTagH acc.1 acc.2 ut) (s, bts) := by
  induction specs with
  | nil => intro s bts; rfl
  | cons sp specs ih =>
    intro s bts
    by_cases hsp : sp.resourceType = "instance"
    · have h1 : mergeInstanceTagsH s bts (sp :: specs) =
          mergeInstanceTagsH
            (sp.tags.foldl (fun acc2 ut => applyUserTagH acc2.1 acc2.2 ut)
              (s, bts)).1
            (sp.tags.foldl (fun acc2 ut => applyUserTagH acc2.1 acc2.2 ut)
              (s, bts)).2 specs := by
        simp [mergeInstanceTagsH, hsp]
      have h2 : flatInstanceRefs (sp :: specs) =
          sp.tags ++ flatInstanceRefs specs := by
        simp [flatInstanceRefs, hsp]
      rw [h1, ih, h2, List.foldl_append]
    · have h1 : mergeInstanceTagsH s bts (sp :: specs) =
          mergeInstanceTagsH s bts specs := by
        simp [mergeInstanceTagsH, hsp]
      have h2 : flatInstanceRefs (sp :: specs) = flatInstanceRefs specs := by
        simp [flatInstanceRefs, hsp]
      rw [h1, ih, h2]

theorem mergeH_frame (store : Store) (baseDicts : List Tag)
    (user : List TagSpecH)
    (hvalid : ∀ r ∈ flatInstanceRefs user, r < store.length)
    (hnd : ((flatInstanceRefs user).map
      (fun r => (getTag store r).key)).Nodup) :
    ∀ q, q < store.length →
      getTag ((mergeInstanceTagsH (store ++ baseDicts)
        (refsFrom store.length baseDicts.length) user).1) q =
        getTag store q := by
  intro q hq
  rw [mergeInstanceTagsH_eq_foldl]
  have halloc : ∀ r, r < store.length →
      getTag (store ++ baseDicts) r = getTag store r :=
    fun r hr => getTag_append_lt store baseDicts r hr
  have hb : ∀ r ∈ refsFrom store.length baseDicts.length,
      r < store.length → (getTag (store ++ baseDicts) r).key ∈
        ([] : List String) := by
    intro r hr hrN
    have := refsFrom_ge baseDicts.length store.length r hr
    omega
  have hnd2 : ((flatInstanceRefs user).map
      (fun u => (getTag (store ++ baseDicts) u).key)).Nodup := by
    have heq : (flatInstanceRefs user).map
        (fun u => (getTag (store ++ baseDicts) u).key) =
        (flatInstanceRefs user).map (fun u => (getTag store u).key) :=
      List.map_congr_left (fun u hu => by rw [halloc u (hvalid u hu)])
    rw [heq]
    exact hnd
  have hdis : ∀ u ∈ flatInstanceRefs user,
      (getTag (store ++ baseDicts) u).key ∉ ([] : List String) := by
    intro u _ hmem
    cases hmem
  have := applyFold_frame store.length (flatInstanceRefs user)
    (store ++ baseDicts) (refsFrom store.length baseDicts.length) []
    hb hnd2 hdis q hq
  exact this.trans (halloc q hq)

theorem createH_fst (env : Nat → NodeConfigH → ApiResult) (cn : String)
    (store : Store) (conf : NodeConfigH) (tags : List (String × String))
    (count : Nat) :
    (createH env cn store conf tags count).1 =
      (mergeInstanceTagsH (store ++ formatTags (buildTags cn tags))
        (refsFrom store.length (formatTags (buildTags cn tags)).length)
        (conf.tagSpecifications.getD [])).1 := by
  cases hs : conf.subnetIds <;>
    simp [createH, mergeTagSpecsH, hs]

end Heap

/-- C9 counterexample: create copies the template only shallowly, so the
nested tag dictionaries are shared with the working copy; with a
template whose instance-type tag-spec entry repeats key A, the merge
appends the first shared dict into its working tag list and then
overwrites its value in place, mutating the caller-visible content of
the template (cell 0 changes from A=1 to A=2). -/
theorem create_template_mutation_counterexample :
    Heap.getTag (Heap.createH envHOk "c1" storeCE tmplCE [] 1).1 0 =
      ⟨"A", "2"⟩ ∧
    Heap.getTag storeCE 0 = ⟨"A", "1"⟩ ∧
    Heap.derefSpecs (Heap.createH envHOk "c1" storeCE tmplCE [] 1).1
        [⟨"instance", [0, 1]⟩] ≠
      Heap.derefSpecs storeCE [⟨"instance", [0, 1]⟩] := by
  refine ⟨by decide, rfl, by decide⟩

/-- C9 amended: create applies all removals and additions to the working
copy only, and when the tag keys across the template's instance-type
tag-spec entries are pairwise distinct (and the references valid), no
store cell reachable from the caller's template changes: every cell of
the caller's store reads the same before and after the call, whether it
succeeds or fails.  With a repeated key the merge can write through a
shared tag dictionary into the caller's template (see the
counterexample), which is the one deviation from the claim. -/
theorem create_store_frame (env : Nat → Heap.NodeConfigH → ApiResult)
    (cn : String) (store : Heap.Store) (conf : Heap.NodeConfigH)
    (tags : List (String × String)) (count : Nat)
    (hvalid : ∀ r ∈ Heap.flatInstanceRefs (conf.tagSpecifications.getD []),
      r < store.length)
    (hnd : ((Heap.flatInstanceRefs (conf.tagSpecifications.getD [])).map
      (fun r => (Heap.getTag store r).key)).Nodup) :
    ∀ q, q < store.length →
      Heap.getTag (Heap.createH env cn store conf tags count).1 q =
        Heap.getTag store q := by
  intro q hq
  rw [Heap.createH_fst]
  exact Heap.mergeH_frame store (formatTags (buildTags cn tags))
    (conf.tagSpecifications.getD []) hvalid hnd q hq

/-- C9 amended witness. -/
theorem create_store_frame_witness :
    Heap.getTag (Heap.createH envHOk "c1" [⟨"A", "1"⟩]
      ⟨some ["s1"], none, some [⟨"instance", [0]⟩], none, none, none, none,
        []⟩ [] 1).1 0 =
      Heap.getTag [⟨"A", "1"⟩] 0 :=
  create_store_frame envHOk "c1" [⟨"A", "1"⟩]
    ⟨some ["s1"], none, some [⟨"instance", [0]⟩], none, none, none, none, []⟩
    [] 1 (by decide) (by decide) 0 (by decide)

end Sky
